import Mathlib

/-!
Shallow embedding of two components of the `social-app` repository:

* the starter-pack wizard state reducer (source file `src/unnamed/part_000`),
* the postgate record client (`src/src/state/queries/postgate/index.ts`).

TypeScript values of type `T | undefined` become `Option T`; JavaScript
truthiness of a possibly-undefined string becomes `jsBoolean`; fallible
asynchronous calls become `Except` values; the remote repository is an
explicit environment (`Nat → Except FetchError GetRecordData`, the outcome
of each fetch attempt).  The helper module `#/state/queries/postgate/util`
and the generic retry driver `#/lib/async/retry` are imported by the source
but are not part of the given sources; those definitions are modelled from
the specification and say so in their doc comments.
-/

namespace Wizard

/-- The wizard steps, `const steps = ['Details', 'Profiles', 'Feeds']`. -/
inductive Step where
  | Details
  | Profiles
  | Feeds
deriving DecidableEq, Repr

/-- The fixed step sequence `steps`. -/
def steps : List Step := [Step.Details, Step.Profiles, Step.Feeds]

/-- Embeds `AppBskyActorDefs.ProfileViewBasic`: only the `did` field is
inspected by the reducer; `handle` stands for the remaining payload. -/
structure ProfileViewBasic where
  did : String
  handle : String
deriving DecidableEq, Repr

/-- Embeds `GeneratorView`: only the `uri` field is inspected by the
reducer; `displayName` stands for the remaining payload. -/
structure GeneratorView where
  uri : String
  displayName : String
deriving DecidableEq, Repr

/-- The wizard `State` interface.  Optional TS fields become `Option`. -/
structure State where
  canNext : Bool
  currentStep : Step
  name : Option String
  description : Option String
  profiles : List ProfileViewBasic
  feeds : List GeneratorView
  processing : Bool
deriving DecidableEq, Repr

/-- The wizard `Action` union type. -/
inductive Action where
  | Next
  | Back
  | SetCanNext (canNext : Bool)
  | SetName (name : String)
  | SetDescription (description : String)
  | AddProfile (profile : ProfileViewBasic)
  | RemoveProfile (profileDid : String)
  | AddFeed (feed : GeneratorView)
  | RemoveFeed (feedUri : String)
  | SetProcessing (processing : Bool)
deriving DecidableEq, Repr

/-- JavaScript truthiness of a `string | undefined` value, as in
`Boolean(updatedState.description)`: `undefined` and `""` are falsy. -/
def jsBoolean : Option String → Bool
  | none => false
  | some s => !s.isEmpty

/-- The wizard reducer, translated clause by clause from the source:
a navigation pass (`Next`/`Back` guarded at the ends of `steps`), the
data-mutation `switch` (each case spreads from `state`, as the source
does), and the final validity recompute `switch` on the resulting step.
The source indexes `steps[currentIndex ± 1]` only under guards that keep
the index in range; `getD` supplies an arbitrary default for the
unreachable out-of-range case. -/
def reducer (state : State) (action : Action) : State :=
  let currentIndex := steps.indexOf state.currentStep
  let updatedState := state
  let updatedState :=
    match action with
    | .Next =>
        if state.currentStep ≠ Step.Feeds then
          { state with currentStep := steps.getD (currentIndex + 1) state.currentStep }
        else updatedState
    | .Back =>
        if state.currentStep ≠ Step.Details then
          { state with currentStep := steps.getD (currentIndex - 1) state.currentStep }
        else updatedState
    | _ => updatedState
  let updatedState :=
    match action with
    | .SetName name => { state with name := some name }
    | .SetDescription description => { state with description := some description }
    | .AddProfile profile => { state with profiles := state.profiles ++ [profile] }
    | .RemoveProfile profileDid =>
        { state with profiles := state.profiles.filter fun profile => profile.did != profileDid }
    | .AddFeed feed => { state with feeds := state.feeds ++ [feed] }
    | .RemoveFeed feedUri =>
        { state with feeds := state.feeds.filter fun f => f.uri != feedUri }
    | .SetProcessing processing => { state with processing := processing }
    | _ => updatedState
  match updatedState.currentStep with
  | .Details => { updatedState with canNext := jsBoolean updatedState.description }
  | _ => { updatedState with canNext := true }

/-- Embeds a starter-pack list item: only `subject` is read. -/
structure ListItem where
  subject : ProfileViewBasic
deriving DecidableEq, Repr

/-- Embeds the decoded `AppBskyGraphStarterpack` record fields the wizard
reads: `name` is required by the lexicon, `description` is optional. -/
structure StarterPackRecordData where
  name : String
  description : Option String
deriving DecidableEq, Repr

/-- Embeds `AppBskyGraphDefs.StarterPackView` as read by the wizard.
`record = none` models a `starterPack.record` that fails the
`AppBskyGraphStarterpack.isRecord` check. -/
structure StarterPackView where
  record : Option StarterPackRecordData
  listItemsSample : Option (List ListItem)
  feeds : Option (List GeneratorView)
deriving DecidableEq, Repr

/-- The wizard's `createInitialState`, translated from the source: seed
from a recognized starter-pack record when present, otherwise start
empty.  `x || []` on a possibly-undefined array becomes `getD []`. -/
def createInitialState (starterPack : Option StarterPackView) : State :=
  match starterPack with
  | some sp =>
      match sp.record with
      | some record =>
          { canNext := false
            currentStep := Step.Details
            name := some record.name
            description := record.description
            profiles := (sp.listItemsSample.map fun items => items.map fun item => item.subject).getD []
            feeds := sp.feeds.getD []
            processing := false }
      | none =>
          { canNext := false, currentStep := Step.Details, name := none,
            description := none, profiles := [], feeds := [], processing := false }
  | none =>
      { canNext := false, currentStep := Step.Details, name := none,
        description := none, profiles := [], feeds := [], processing := false }

/-- The states reachable from some initial wizard state by dispatching
reducer actions. -/
inductive Reachable : State → Prop where
  | init (starterPack : Option StarterPackView) : Reachable (createInitialState starterPack)
  | step {s : State} (a : Action) : Reachable s → Reachable (reducer s a)

end Wizard

namespace Wizard

/-- C1: after any reduction, `canNext` equals the truthiness of the
description when the resulting step is `Details`, and `true` on any other
resulting step. -/
theorem reducer_canNext_invariant (s : State) (a : Action) :
    (reducer s a).canNext =
      (if (reducer s a).currentStep = Step.Details
       then jsBoolean (reducer s a).description
       else true) := by
  cases a <;> cases h : s.currentStep <;>
    simp [reducer, h, steps]

/-- C4: the resulting step is unchanged or adjacent in the fixed sequence
`[Details, Profiles, Feeds]`, and `Next` on `Feeds` / `Back` on `Details`
leave the step unchanged. -/
theorem reducer_step_adjacent (s : State) (a : Action) :
    (steps.indexOf (reducer s a).currentStep = steps.indexOf s.currentStep ∨
     steps.indexOf (reducer s a).currentStep = steps.indexOf s.currentStep + 1 ∨
     steps.indexOf (reducer s a).currentStep + 1 = steps.indexOf s.currentStep) ∧
    (reducer { s with currentStep := Step.Feeds } Action.Next).currentStep = Step.Feeds ∧
    (reducer { s with currentStep := Step.Details } Action.Back).currentStep = Step.Details := by
  refine ⟨?_, ?_, ?_⟩
  · cases a <;> cases h : s.currentStep <;> simp [reducer, h, steps]
  · simp [reducer, steps]
  · simp [reducer, steps]

/-- C7: the initial wizard state has `canNext = false` in both
construction paths, even when the seeded description is non-empty. -/
theorem createInitialState_canNext_false (starterPack : Option StarterPackView) :
    (createInitialState starterPack).canNext = false := by
  cases starterPack with
  | none => rfl
  | some sp => cases hr : sp.record <;> simp [createInitialState, hr]

/-- C8: the `SetCanNext` payload has no effect — the reducer has no case
for it and the validity pass recomputes `canNext` regardless. -/
theorem reducer_setCanNext_payload_irrelevant (s : State) (b1 b2 : Bool) :
    reducer s (Action.SetCanNext b1) = reducer s (Action.SetCanNext b2) := rfl

/-- C5 counterexample: dispatching `AddProfile` twice with the same `did`
from the empty initial state reaches a state whose profile identifiers are
duplicated, so uniqueness by `did` is not an invariant of the reducer. -/
theorem reachable_profileDid_duplicate :
    Reachable (reducer (reducer (createInitialState none)
        (Action.AddProfile ⟨"did:plc:alice", "alice"⟩))
        (Action.AddProfile ⟨"did:plc:alice", "alice"⟩)) ∧
    ¬ ((reducer (reducer (createInitialState none)
        (Action.AddProfile ⟨"did:plc:alice", "alice"⟩))
        (Action.AddProfile ⟨"did:plc:alice", "alice"⟩)).profiles.map
          ProfileViewBasic.did).Nodup := by
  refine ⟨Reachable.step _ (Reachable.step _ (Reachable.init none)), ?_⟩
  decide

/-- C5 amended: every action preserves uniqueness of profile identifiers
except `AddProfile` of a `did` that is already present; in particular any
action other than such a duplicate `AddProfile` keeps the profile list
unique by `did`. -/
theorem reducer_preserves_profileDid_nodup (s : State) (a : Action)
    (h : (s.profiles.map ProfileViewBasic.did).Nodup)
    (hadd : ∀ p, a = Action.AddProfile p → p.did ∉ s.profiles.map ProfileViewBasic.did) :
    ((reducer s a).profiles.map ProfileViewBasic.did).Nodup := by
  cases a with
  | AddProfile p =>
      have hp : (reducer s (Action.AddProfile p)).profiles = s.profiles ++ [p] := by
        cases hs : s.currentStep <;> simp [reducer, hs]
      rw [hp, List.map_append, List.nodup_append]
      exact ⟨h, List.nodup_singleton _, by
        intro x hx hx'
        simp only [List.map_cons, List.map_nil, List.mem_singleton] at hx'
        exact hadd p rfl (hx' ▸ hx)⟩
  | RemoveProfile d =>
      have hp : (reducer s (Action.RemoveProfile d)).profiles =
          s.profiles.filter (fun p => p.did != d) := by
        cases hs : s.currentStep <;> simp [reducer, hs]
      rw [hp]
      exact h.sublist ((List.filter_sublist _).map _)
  | Next =>
      have hp : (reducer s Action.Next).profiles = s.profiles := by
        cases hs : s.currentStep <;> simp [reducer, hs, steps]
      rw [hp]; exact h
  | Back =>
      have hp : (reducer s Action.Back).profiles = s.profiles := by
        cases hs : s.currentStep <;> simp [reducer, hs, steps]
      rw [hp]; exact h
  | SetCanNext b =>
      have hp : (reducer s (Action.SetCanNext b)).profiles = s.profiles := by
        cases hs : s.currentStep <;> simp [reducer, hs]
      rw [hp]; exact h
  | SetName n =>
      have hp : (reducer s (Action.SetName n)).profiles = s.profiles := by
        cases hs : s.currentStep <;> simp [reducer, hs]
      rw [hp]; exact h
  | SetDescription d =>
      have hp : (reducer s (Action.SetDescription d)).profiles = s.profiles := by
        cases hs : s.currentStep <;> simp [reducer, hs]
      rw [hp]; exact h
  | AddFeed f =>
      have hp : (reducer s (Action.AddFeed f)).profiles = s.profiles := by
        cases hs : s.currentStep <;> simp [reducer, hs]
      rw [hp]; exact h
  | RemoveFeed u =>
      have hp : (reducer s (Action.RemoveFeed u)).profiles = s.profiles := by
        cases hs : s.currentStep <;> simp [reducer, hs]
      rw [hp]; exact h
  | SetProcessing b =>
      have hp : (reducer s (Action.SetProcessing b)).profiles = s.profiles := by
        cases hs : s.currentStep <;> simp [reducer, hs]
      rw [hp]; exact h

/-- Witness for the amended C5 theorem at a concrete state and action. -/
theorem reducer_preserves_profileDid_nodup_witness :
    ((reducer (createInitialState none)
        (Action.AddProfile ⟨"did:plc:bob", "bob"⟩)).profiles.map
          ProfileViewBasic.did).Nodup :=
  reducer_preserves_profileDid_nodup (createInitialState none)
    (Action.AddProfile ⟨"did:plc:bob", "bob"⟩)
    (by decide)
    (by intro p hp; cases hp; decide)

end Wizard

namespace Postgate

/-- `leadsWith pat s` holds when the character list `pat` starts the
character list `s`; used to embed JavaScript's `String.includes`. -/
def leadsWith : List Char → List Char → Bool
  | [], _ => true
  | _ :: _, [] => false
  | a :: as, b :: bs => a == b && leadsWith as bs

/-- `occursIn pat s` holds when `pat` occurs contiguously in `s`. -/
def occursIn (pat : List Char) : List Char → Bool
  | [] => leadsWith pat []
  | b :: bs => leadsWith pat (b :: bs) || occursIn pat bs

/-- JavaScript `s.includes(pat)`: `pat` occurs as a substring of `s`. -/
def strIncludes (s pat : String) : Bool := occursIn pat.data s.data

/-- Collapse duplicates keeping first occurrences, as a JavaScript `Set`
built from a list does. -/
def dedupFirst : List String → List String
  | [] => []
  | x :: xs => x :: dedupFirst (xs.filter fun y => y != x)
termination_by l => l.length
decreasing_by
  simp only [List.length_cons]
  exact Nat.lt_succ_of_le (List.length_filter_le _ _)

/-- A quotepost rule, carrying its `$type` tag. -/
structure QuotepostRule where
  ruleType : String
deriving DecidableEq, Repr

/-- The `$type` of the single existing rule, `#disableRule`. -/
def disableRuleType : String := "app.bsky.feed.postgate#disableRule"

/-- Embeds `AppBskyFeedPostgate.Record` as used by this module:
`post` is required, `detachedQuotes` and `quotepostRules` are optional
in the record shape. -/
structure PostgateRecord where
  post : String
  detachedQuotes : Option (List String)
  quotepostRules : Option (List QuotepostRule)
deriving DecidableEq, Repr

/-- A partial record passed as the merge delta: each field may be
supplied or absent. -/
structure PostgateRecordDelta where
  detachedQuotes : Option (List String)
  quotepostRules : Option (List QuotepostRule)
deriving DecidableEq, Repr

/-- Modelled from the spec: `mergePostgateRecords` is imported from
`#/state/queries/postgate/util`, which is not among the given sources.
Per the spec it must "union `detachedQuotes` (delta entries added,
duplicates collapsed since it is a set), replace `quotepostRules`
wholesale with delta's value when supplied."  The union keeps first
occurrences, as a JavaScript `Set` built from the concatenation does. -/
def mergePostgateRecords (base : PostgateRecord) (delta : PostgateRecordDelta) :
    PostgateRecord :=
  { post := base.post
    detachedQuotes :=
      some (dedupFirst (base.detachedQuotes.getD [] ++ delta.detachedQuotes.getD []))
    quotepostRules :=
      match delta.quotepostRules with
      | some rules => some rules
      | none => base.quotepostRules }

/-- Modelled from the spec: `createPostgateRecord` is imported from
`#/state/queries/postgate/util`, which is not among the given sources.
It builds a fresh record of shape `{post, detachedQuotes?,
quotepostRules?}` for the given post, absent fields defaulting to
empty. -/
def createPostgateRecord (post : String) (detachedQuotes : Option (List String))
    (quotepostRules : Option (List QuotepostRule)) : PostgateRecord :=
  { post := post
    detachedQuotes := some (detachedQuotes.getD [])
    quotepostRules := some (quotepostRules.getD []) }

/-- A failure reported by a remote call; only its `message` string is
inspected by this module. -/
structure FetchError where
  message : String
deriving DecidableEq, Repr

/-- The payload of a successful `getRecord` call: either a value that
validates as a postgate record (`AppBskyFeedPostgate.isRecord`) or some
other value that does not. -/
inductive FetchedValue where
  | record (r : PostgateRecord)
  | invalid (blob : String)
deriving DecidableEq, Repr

/-- The `data` of a successful `getRecord` response; `value` may be
absent. -/
structure GetRecordData where
  value : Option FetchedValue
deriving DecidableEq, Repr

/-- The error thrown by `getPostgateRecord` on unexpected failures:
`new Error("Failed to get postgate record", {cause: e})`. -/
structure WrappedError where
  message : String
  cause : FetchError
deriving DecidableEq, Repr

/-- The marker substring the source tests with
`e.message.includes("Could not locate record:")`. -/
def notFoundMarker : String := "Could not locate record:"

/-- The retry predicate passed to `retry` by `getPostgateRecord`,
translated from the source: do not retry when the failure message
contains the not-found marker, retry otherwise. -/
def shouldRetryGetRecord (e : FetchError) : Bool :=
  if strIncludes e.message notFoundMarker then false else true

/-- Modelled from the spec: the generic `retry` driver from
`#/lib/async/retry` is not among the given sources.  Per the spec the
fetch "is retried up to 2 additional times", with the predicate deciding
whether a failure is retried.  `attempts i` is the outcome of the `i`-th
remote call; the result pairs the final outcome with the number of
attempts consumed. -/
def retry (retries : Nat) (shouldRetry : FetchError → Bool)
    (attempts : Nat → Except FetchError GetRecordData) (i : Nat) :
    Except FetchError GetRecordData × Nat :=
  match attempts i with
  | .ok d => (.ok d, 1)
  | .error e =>
      match retries with
      | 0 => (.error e, 1)
      | r + 1 =>
          if shouldRetry e then
            let t := retry r shouldRetry attempts (i + 1)
            (t.1, t.2 + 1)
          else (.error e, 1)

/-- `getPostgateRecord`, translated from the source.  The handle
resolution prelude and the remote transport are abstracted into the
`attempts` environment, giving each remote `getRecord` call's outcome at
the already-resolved repo/collection/rkey.  A successful payload is
returned when `data.value` is present and validates
(`data.value && AppBskyFeedPostgate.isRecord(data.value)`), else
`undefined`; a caught failure whose message contains the not-found
marker yields `undefined`, and any other failure is rethrown wrapped
with its cause. -/
def getPostgateRecord (attempts : Nat → Except FetchError GetRecordData) :
    Except WrappedError (Option PostgateRecord) :=
  match (retry 2 shouldRetryGetRecord attempts 0).1 with
  | .ok data =>
      match data.value with
      | some (.record r) => .ok (some r)
      | some (.invalid _) => .ok none
      | none => .ok none
  | .error e =>
      if strIncludes e.message notFoundMarker then .ok none
      else .error { message := "Failed to get postgate record", cause := e }

/-- `upsertPostgate`, translated from the source: fetch the current
record, pass it to the callback, and write the callback's result back
when there is one.  The returned list is the log of `putRecord` writes
performed (empty when the callback returns nothing); a fetch failure
propagates. -/
def upsertPostgate (attempts : Nat → Except FetchError GetRecordData)
    (callback : Option PostgateRecord → Option PostgateRecord) :
    Except WrappedError (List PostgateRecord) :=
  match getPostgateRecord attempts with
  | .error e => .error e
  | .ok prev =>
      match callback prev with
      | none => .ok []
      | some next => .ok [next]

/-- The two actions of the quote-detachment toggle. -/
inductive DetachAction where
  | detach
  | reattach
deriving DecidableEq, Repr

/-- The two actions of the quotepost-enabled toggle. -/
inductive QuotepostAction where
  | enable
  | disable
deriving DecidableEq, Repr

/-- The upsert callback of `useToggleQuoteDetachmentMutation`, translated
from the source: `postUri` is the quoting post's `post.uri` and
`quoteUri` the quoted post's URI.  `prev.detachedQuotes?.filter(...) ||
[]` becomes a match on the optional field defaulting to `[]`. -/
def toggleQuoteDetachmentCallback (postUri quoteUri : String) (action : DetachAction)
    (prev : Option PostgateRecord) : Option PostgateRecord :=
  match prev with
  | some prev =>
      match action with
      | .detach =>
          some (mergePostgateRecords prev
            { detachedQuotes := some [postUri], quotepostRules := none })
      | .reattach =>
          some { prev with
                 detachedQuotes :=
                   some (match prev.detachedQuotes with
                         | some uris => uris.filter fun uri => uri != postUri
                         | none => []) }
  | none =>
      match action with
      | .detach => some (createPostgateRecord quoteUri (some [postUri]) none)
      | .reattach => none

/-- The upsert callback of `useToggleQuotepostEnabledMutation`,
translated from the source. -/
def toggleQuotepostEnabledCallback (postUri : String) (action : QuotepostAction)
    (prev : Option PostgateRecord) : Option PostgateRecord :=
  match prev with
  | some prev =>
      match action with
      | .disable =>
          some (mergePostgateRecords prev
            { detachedQuotes := none, quotepostRules := some [⟨disableRuleType⟩] })
      | .enable => some { prev with quotepostRules := some [] }
  | none =>
      match action with
      | .disable => some (createPostgateRecord postUri none (some [⟨disableRuleType⟩]))
      | .enable => none

/-- Membership is preserved by `dedupFirst`. -/
theorem mem_dedupFirst : ∀ (l : List String) (a : String), a ∈ dedupFirst l ↔ a ∈ l := by
  intro l
  induction l using dedupFirst.induct with
  | case1 => intro a; simp [dedupFirst]
  | case2 x xs ih =>
      intro a
      simp only [dedupFirst, List.mem_cons, ih, List.mem_filter, bne_iff_ne, ne_eq]
      constructor
      · rintro (rfl | ⟨h, _⟩)
        · exact Or.inl rfl
        · exact Or.inr h
      · rintro (rfl | h)
        · exact Or.inl rfl
        · by_cases hx : a = x
          · exact Or.inl hx
          · exact Or.inr ⟨h, hx⟩

/-- `dedupFirst` produces a duplicate-free list. -/
theorem nodup_dedupFirst : ∀ l : List String, (dedupFirst l).Nodup := by
  intro l
  induction l using dedupFirst.induct with
  | case1 => simp [dedupFirst]
  | case2 x xs ih =>
      simp only [dedupFirst, List.nodup_cons]
      refine ⟨?_, ih⟩
      intro hx
      rw [mem_dedupFirst] at hx
      simp [List.mem_filter] at hx

/-- `dedupFirst` fixes duplicate-free lists. -/
theorem dedupFirst_eq_self : ∀ {l : List String}, l.Nodup → dedupFirst l = l := by
  intro l
  induction l with
  | nil => intro _; simp [dedupFirst]
  | cons x xs ih =>
      intro h
      rw [List.nodup_cons] at h
      have hf : xs.filter (fun y => y != x) = xs := by
        rw [List.filter_eq_self]
        intro y hy
        simp only [bne_iff_ne, ne_eq]
        exact fun hyx => h.1 (hyx ▸ hy)
      simp [dedupFirst, hf, ih h.2]

/-- Appending an element already present to a duplicate-free list and
collapsing duplicates gives the list back. -/
theorem dedupFirst_append_singleton_of_mem :
    ∀ {l : List String} {u : String}, l.Nodup → u ∈ l → dedupFirst (l ++ [u]) = l := by
  intro l
  induction l with
  | nil => intro u _ hu; cases hu
  | cons x xs ih =>
      intro u hn hu
      rw [List.nodup_cons] at hn
      by_cases hux : u = x
      · subst hux
        have h1 : xs.filter (fun y => y != u) = xs := by
          rw [List.filter_eq_self]
          intro y hy
          simp only [bne_iff_ne, ne_eq]
          exact fun hyu => hn.1 (hyu ▸ hy)
        have hf : (xs ++ [u]).filter (fun y => y != u) = xs := by
          rw [List.filter_append, h1]
          simp
        simp [dedupFirst, List.cons_append, hf, dedupFirst_eq_self hn.2]
      · have hu' : u ∈ xs := by
          rcases List.mem_cons.mp hu with h | h
          · exact absurd h hux
          · exact h
        have hfx : xs.filter (fun y => y != x) = xs := by
          rw [List.filter_eq_self]
          intro y hy
          simp only [bne_iff_ne, ne_eq]
          exact fun hyx => hn.1 (hyx ▸ hy)
        have hf : (xs ++ [u]).filter (fun y => y != x) = xs ++ [u] := by
          rw [List.filter_append, hfx]
          simp [hux]
        simp [dedupFirst, List.cons_append, hf, ih hn.2 hu']

/-- A remote that always reports the record as missing. -/
def attemptsNotFound : Nat → Except FetchError GetRecordData :=
  fun _ => .error ⟨"Could not locate record: at://did:plc:x/app.bsky.feed.postgate/3k"⟩

/-- A remote that always fails with an upstream failure. -/
def attemptsUpstream : Nat → Except FetchError GetRecordData :=
  fun _ => .error ⟨"Upstream failure"⟩

/-- A remote whose calls report the record as missing; used to witness
the no-retry behavior. -/
def attemptsMissingFirst : Nat → Except FetchError GetRecordData :=
  fun _ => .error ⟨"Could not locate record: at://alice.test/app.bsky.feed.postgate/abc"⟩

/-- A remote that succeeds with no stored value. -/
def attemptsEmptyRepo : Nat → Except FetchError GetRecordData :=
  fun _ => .ok ⟨none⟩

/-- C6: merging the same detached-quote URI twice is idempotent on
`detachedQuotes`, and after one merge the URI occurs exactly once. -/
theorem mergePostgateRecords_detachedQuotes_idempotent (base : PostgateRecord) (u : String) :
    (mergePostgateRecords
        (mergePostgateRecords base { detachedQuotes := some [u], quotepostRules := none })
        { detachedQuotes := some [u], quotepostRules := none }).detachedQuotes =
      (mergePostgateRecords base
        { detachedQuotes := some [u], quotepostRules := none }).detachedQuotes ∧
    ((mergePostgateRecords base
        { detachedQuotes := some [u], quotepostRules := none }).detachedQuotes.getD
        []).count u = 1 := by
  have hnd : (dedupFirst (base.detachedQuotes.getD [] ++ [u])).Nodup := nodup_dedupFirst _
  have hmem : u ∈ dedupFirst (base.detachedQuotes.getD [] ++ [u]) := by
    rw [mem_dedupFirst]; simp
  constructor
  · simp only [mergePostgateRecords, Option.getD_some]
    rw [dedupFirst_append_singleton_of_mem hnd hmem]
  · simp only [mergePostgateRecords, Option.getD_some]
    exact List.count_eq_one_of_mem hnd hmem

/-- C2: `getPostgateRecord` returns the absent record (`.ok none`)
exactly when the final fetch outcome is a failure whose message contains
the not-found marker, or a success whose payload is missing or fails the
record-shape validation; any other failure is rethrown wrapped with its
cause. -/
theorem getPostgateRecord_absent_iff (attempts : Nat → Except FetchError GetRecordData) :
    (getPostgateRecord attempts = .ok none ↔
      ((∃ e, (retry 2 shouldRetryGetRecord attempts 0).1 = .error e ∧
          strIncludes e.message notFoundMarker = true) ∨
       (∃ d, (retry 2 shouldRetryGetRecord attempts 0).1 = .ok d ∧
          ∀ r, d.value ≠ some (.record r)))) ∧
    (∀ e, (retry 2 shouldRetryGetRecord attempts 0).1 = .error e →
      strIncludes e.message notFoundMarker = false →
      getPostgateRecord attempts =
        .error { message := "Failed to get postgate record", cause := e }) := by
  rcases hR : (retry 2 shouldRetryGetRecord attempts 0).1 with e | d
  · by_cases hm : strIncludes e.message notFoundMarker = true
    · refine ⟨?_, ?_⟩
      · simp only [getPostgateRecord, hR, hm, if_true]
        constructor
        · intro _; exact Or.inl ⟨e, rfl, hm⟩
        · intro _; trivial
      · intro e' he' hm'
        cases Except.error.inj he'
        rw [hm] at hm'
        cases hm'
    · rw [Bool.not_eq_true] at hm
      refine ⟨?_, ?_⟩
      · simp only [getPostgateRecord, hR, hm, Bool.false_eq_true, if_false]
        constructor
        · intro h; cases h
        · rintro (⟨e', he', hm'⟩ | ⟨d, hd, _⟩)
          · cases Except.error.inj he'
            rw [hm] at hm'
            cases hm'
          · exact Except.noConfusion hd
      · intro e' he' _
        cases Except.error.inj he'
        simp [getPostgateRecord, hR, hm]
  · refine ⟨?_, ?_⟩
    · rcases hv : d.value with _ | v
      · simp only [getPostgateRecord, hR, hv]
        constructor
        · intro _
          exact Or.inr ⟨d, rfl, by intro r; rw [hv]; intro h; cases h⟩
        · intro _; trivial
      · rcases v with r | blob
        · simp only [getPostgateRecord, hR, hv]
          constructor
          · intro h; cases h
          · rintro (⟨e', he', _⟩ | ⟨d', hd', hval⟩)
            · exact Except.noConfusion he'
            · cases Except.ok.inj hd'
              exact absurd hv (by simpa using hval r)
        · simp only [getPostgateRecord, hR, hv]
          constructor
          · intro _
            exact Or.inr ⟨d, rfl, by intro r; rw [hv]; intro h; cases h⟩
          · intro _; trivial
    · intro e' he' _
      exact Except.noConfusion he'

/-- Witness for C2 at concrete remotes: a not-found failure yields the
absent record and an upstream failure yields the wrapped error. -/
theorem getPostgateRecord_absent_iff_witness :
    getPostgateRecord attemptsNotFound = .ok none ∧
    getPostgateRecord attemptsUpstream =
      .error { message := "Failed to get postgate record",
               cause := ⟨"Upstream failure"⟩ } := by
  constructor
  · exact (getPostgateRecord_absent_iff attemptsNotFound).1.mpr
      (Or.inl ⟨⟨"Could not locate record: at://did:plc:x/app.bsky.feed.postgate/3k"⟩,
        rfl, by decide⟩)
  · exact (getPostgateRecord_absent_iff attemptsUpstream).2
      ⟨"Upstream failure"⟩ rfl (by decide)

/-- C9: a first-attempt failure whose message contains the not-found
marker makes the retry predicate refuse a retry, so exactly one attempt
is consumed, and `getPostgateRecord` returns the absent record instead
of throwing — whatever kind of error carried the message. -/
theorem getPostgateRecord_notFound_no_retry
    (attempts : Nat → Except FetchError GetRecordData) (e : FetchError)
    (h0 : attempts 0 = .error e)
    (hm : strIncludes e.message notFoundMarker = true) :
    shouldRetryGetRecord e = false ∧
    retry 2 shouldRetryGetRecord attempts 0 = (.error e, 1) ∧
    getPostgateRecord attempts = .ok none := by
  have hp : shouldRetryGetRecord e = false := by
    simp [shouldRetryGetRecord, hm]
  have hr : retry 2 shouldRetryGetRecord attempts 0 = (.error e, 1) := by
    simp [retry, h0, hp]
  exact ⟨hp, hr, by simp [getPostgateRecord, hr, hm]⟩

/-- Witness for C9 at a concrete remote whose failure message carries
the not-found marker. -/
theorem getPostgateRecord_notFound_no_retry_witness :
    shouldRetryGetRecord
        ⟨"Could not locate record: at://alice.test/app.bsky.feed.postgate/abc"⟩ = false ∧
    retry 2 shouldRetryGetRecord attemptsMissingFirst 0 =
      (.error ⟨"Could not locate record: at://alice.test/app.bsky.feed.postgate/abc"⟩, 1) ∧
    getPostgateRecord attemptsMissingFirst = .ok none :=
  getPostgateRecord_notFound_no_retry attemptsMissingFirst
    ⟨"Could not locate record: at://alice.test/app.bsky.feed.postgate/abc"⟩
    rfl (by decide)

/-- C3: given the fetched previous record, `upsertPostgate` performs a
write exactly when the callback returns a record, the written record is
exactly the callback's result on the fetched previous record, and the
reattach toggle invoked with no previous record performs no write. -/
theorem upsertPostgate_write_iff (attempts : Nat → Except FetchError GetRecordData)
    (callback : Option PostgateRecord → Option PostgateRecord)
    (prev : Option PostgateRecord)
    (hprev : getPostgateRecord attempts = .ok prev)
    (postUri quoteUri : String) :
    (∀ r, upsertPostgate attempts callback = .ok [r] ↔ callback prev = some r) ∧
    (upsertPostgate attempts callback = .ok [] ↔ callback prev = none) ∧
    (prev = none →
      upsertPostgate attempts
        (toggleQuoteDetachmentCallback postUri quoteUri .reattach) = .ok []) := by
  refine ⟨?_, ?_, ?_⟩
  · intro r
    rcases h : callback prev with _ | r' <;>
      simp [upsertPostgate, hprev, h]
  · rcases h : callback prev with _ | r' <;>
      simp [upsertPostgate, hprev, h]
  · intro hnone
    subst hnone
    simp [upsertPostgate, hprev, toggleQuoteDetachmentCallback]

/-- Witness for C3: over an empty remote repository the reattach toggle
performs no write. -/
theorem upsertPostgate_write_iff_witness :
    upsertPostgate attemptsEmptyRepo
      (toggleQuoteDetachmentCallback "at://p/3k" "at://q/3m" .reattach) = .ok [] :=
  (upsertPostgate_write_iff attemptsEmptyRepo
      (toggleQuoteDetachmentCallback "at://p/3k" "at://q/3m" .reattach) none rfl
      "at://p/3k" "at://q/3m").2.2 rfl

/-- C10: on an existing record the enable branch of the quotepost toggle
changes only `quotepostRules`, and the reattach branch of the
quote-detachment toggle changes only `detachedQuotes`, normalizing an
absent `detachedQuotes` to the empty list. -/
theorem toggle_callbacks_frame (prev : PostgateRecord) (postUri quoteUri : String) :
    (∃ r, toggleQuotepostEnabledCallback postUri .enable (some prev) = some r ∧
       r.post = prev.post ∧ r.detachedQuotes = prev.detachedQuotes ∧
       r.quotepostRules = some []) ∧
    (∃ r, toggleQuoteDetachmentCallback postUri quoteUri .reattach (some prev) = some r ∧
       r.post = prev.post ∧ r.quotepostRules = prev.quotepostRules ∧
       r.detachedQuotes =
         some ((prev.detachedQuotes.getD []).filter fun uri => uri != postUri) ∧
       (prev.detachedQuotes = none → r.detachedQuotes = some [])) := by
  constructor
  · exact ⟨_, rfl, rfl, rfl, rfl⟩
  · refine ⟨_, rfl, rfl, rfl, ?_, ?_⟩
    · rcases hdq : prev.detachedQuotes with _ | uris <;> simp [hdq]
    · intro hdq
      simp [hdq]

/-- Witness for C10 at a concrete record with an absent
`detachedQuotes` field: reattach normalizes it to the empty list. -/
theorem toggle_callbacks_frame_witness :
    ∃ r, toggleQuoteDetachmentCallback "at://p/1" "at://q/1" DetachAction.reattach
        (some ⟨"at://q/1", none, some []⟩) = some r ∧ r.detachedQuotes = some [] := by
  obtain ⟨-, r, hr, -, -, -, himp⟩ :=
    toggle_callbacks_frame ⟨"at://q/1", none, some []⟩ "at://p/1" "at://q/1"
  exact ⟨r, hr, himp rfl⟩

end Postgate
